import Mathlib

/-!
Verification development for `plot_color_thingy` (src/demo.py and
src/formatting_inheritance.py).

The program is a Qt tree of plot nodes.  We embed the pure core:

* `PlotInstruction` (demo.py lines 25-29): a `plot_keywords` dict together
  with x/y numeric arrays.  The dict is modelled as an insertion-ordered
  association list with unique keys, as in CPython: assignment to a present
  key replaces its value in place, assignment to an absent key appends.
  Numeric arrays are modelled as lists of rationals (the numeric values are
  never inspected by the core logic).
* The two modifier classes `TrendModifier` / `DataModifier`
  (demo.py lines 39-78), as `ModifierKind` plus `applyModifier`.
  `matplotlib.colormaps[scheme]` followed by `cmap(t)` is modelled
  symbolically by the value `AttrValue.cmapSample scheme t`, with the exact
  rational sample position `t`; colormap-name resolution is abstracted.
  `TrendModifier.apply_modifier` raises `ZeroDivisionError` exactly when the
  loop body runs with `n - 1 = 0`, i.e. when the input has length 1; a raised
  exception is modelled by `none`, and `Option.bind` propagates it.
* The tree of `QTreeWidgetItem` nodes, as the nested inductive `Node`:
  modifiers, `DataItem`, `DataLink`, `TrendItem`, `TrendLink`, `Plot`, and
  `other` for the non-`Plottable` root/container items.  A link stores its
  source node by value (the embedding is a pure snapshot of the object graph
  at call time).
* `Plottable.plot_instructions`, `referenced_plot_instructions` and
  `modifiers` (demo.py lines 81-171), as mutually recursive functions.
* `Appearance` and the `AppearanceContainer` prototype
  (formatting_inheritance.py).
-/

namespace PlotColorThingy

/-- A value stored in a `plot_keywords` dict: either a plain string (as set
by `DataModifier`) or a colormap sample `cmap(pos)` for the named colormap
(as set by `TrendModifier`), recorded symbolically with its exact sample
position. -/
inductive AttrValue where
  | str (s : String)
  | cmapSample (scheme : String) (pos : ℚ)
deriving DecidableEq, Repr

/-- demo.py lines 25-29: `PlotInstruction` with its `plot_keywords` dict and
x/y arrays. -/
structure PlotInstruction where
  plot_keywords : List (String × AttrValue)
  x : List ℚ
  y : List ℚ
deriving DecidableEq, Repr

/-- CPython dict assignment `d[k] = v` on the association-list model: the
first (unique) binding of a present key is replaced in place, an absent key
is appended at the end. -/
def dictSet : List (String × AttrValue) → String → AttrValue → List (String × AttrValue)
  | [], k, v => [(k, v)]
  | p :: rest, k, v => if p.1 = k then (k, v) :: rest else p :: dictSet rest k v

/-- CPython dict lookup `d.get(k)`: the first binding of the key, if any. -/
def dictGet : List (String × AttrValue) → String → Option AttrValue
  | [], _ => none
  | p :: rest, k => if p.1 = k then some p.2 else dictGet rest k

/-- demo.py lines 21-23: `flatten`, concatenation of a list of lists. -/
def flatten {α : Type*} (data : List (List α)) : List α := data.flatten

/-- demo.py lines 44-54: `TrendModifier.apply_modifier`.  `n` is computed
once; each index `i` gets `color = cmap(i/(n-1))`.  Python's
`index/(n-1)` raises `ZeroDivisionError` exactly when the loop body executes
with `n = 1`; that run is modelled by `none`. -/
def trendApply (color_scheme : String) (instructions : List PlotInstruction) :
    Option (List PlotInstruction) :=
  let n := instructions.length
  if n = 1 then none
  else some <| instructions.enum.map fun p =>
    { plot_keywords :=
        dictSet p.2.plot_keywords "color"
          (AttrValue.cmapSample color_scheme ((p.1 : ℚ) / ((n : ℚ) - 1)))
      x := p.2.x
      y := p.2.y }

/-- demo.py lines 69-76: the dict transformation inside the
`DataModifier.apply_modifier` loop body: copy the keywords, then set
`color` / `linestyle` when the modifier was configured with them. -/
def dataKeywords (color linestyle : Option String)
    (d : List (String × AttrValue)) : List (String × AttrValue) :=
  let d1 := match color with
    | some c => dictSet d "color" (AttrValue.str c)
    | none => d
  match linestyle with
  | some l => dictSet d1 "linestyle" (AttrValue.str l)
  | none => d1

/-- demo.py lines 66-78: `DataModifier.apply_modifier`. -/
def dataApply (color linestyle : Option String)
    (instructions : List PlotInstruction) : List PlotInstruction :=
  instructions.map fun instruction =>
    { plot_keywords := dataKeywords color linestyle instruction.plot_keywords
      x := instruction.x
      y := instruction.y }

/-- The two concrete `Modifier` subclasses with their construction-time
configuration (demo.py lines 39-42 and 56-59). -/
inductive ModifierKind where
  | trendModifier (color_scheme : String)
  | dataModifier (color : Option String) (linestyle : Option String)
deriving DecidableEq, Repr

/-- Dispatch of `Modifier.apply_modifier` to the concrete subclass. -/
def applyModifier (m : ModifierKind) (instructions : List PlotInstruction) :
    Option (List PlotInstruction) :=
  match m with
  | .trendModifier s => trendApply s instructions
  | .dataModifier c l => some (dataApply c l instructions)

/-- The `QTreeWidgetItem` tree of demo.py.  Each constructor carries its
ordered list of immediate children; `dataLink` / `trendLink` additionally
carry their `src` node (`__init__`, demo.py lines 122-124 and 145-147).
`other` stands for the non-`Plottable`, non-`Modifier` items
(`DataRoot`, `TrendsRoot`, `PlotRoot`, plain `QTreeWidgetItem`s). -/
inductive Node where
  | modifier (m : ModifierKind) (children : List Node)
  | dataItem (x y : List ℚ) (children : List Node)
  | dataLink (src : Node) (children : List Node)
  | trendItem (children : List Node)
  | trendLink (src : Node) (children : List Node)
  | plot (children : List Node)
  | other (children : List Node)

/-- Python check `isinstance(child, Modifier)`. -/
def isModifier : Node → Bool
  | .modifier _ _ => true
  | _ => false

/-- Python check `isinstance(child, Plottable)`: `DataItem`, `DataLink`, `TrendItem`,
`TrendLink` and `Plot` are the `Plottable` subclasses. -/
def isPlottable : Node → Bool
  | .dataItem _ _ _ => true
  | .dataLink _ _ => true
  | .trendItem _ => true
  | .trendLink _ _ => true
  | .plot _ => true
  | _ => false

/-- Python check `isinstance(child, DataLink)`. -/
def isDataLink : Node → Bool
  | .dataLink _ _ => true
  | _ => false

/-- Python check `isinstance(node, DataItem)`. -/
def isDataItem : Node → Bool
  | .dataItem _ _ _ => true
  | _ => false

/-- Python check `isinstance(node, TrendItem)`. -/
def isTrendItem : Node → Bool
  | .trendItem _ => true
  | _ => false

/-- A `Modifier`-kind child, viewed as its configuration. -/
def asModifier : Node → Option ModifierKind
  | .modifier m _ => some m
  | _ => none

/-- The ordered immediate children of a node
(`self.child(i) for i in range(self.childCount())`). -/
def Node.children : Node → List Node
  | .modifier _ cs => cs
  | .dataItem _ _ cs => cs
  | .dataLink _ cs => cs
  | .trendItem cs => cs
  | .trendLink _ cs => cs
  | .plot cs => cs
  | .other cs => cs

/-- demo.py lines 91-94: `Plottable.modifiers`, the ordered subsequence of
the immediate children that are `Modifier` instances. -/
def Node.modifiers (n : Node) : List ModifierKind :=
  n.children.filterMap asModifier

mutual

/-- demo.py lines 82-86: `Plottable.plot_instructions`: start from
`referenced_plot_instructions` and run each modifier child in order on the
previous output.  `Option.bind` propagates a raised exception. -/
def plot_instructions (n : Node) : Option (List PlotInstruction) :=
  n.modifiers.foldl (fun out m => out >>= applyModifier m)
    (referenced_plot_instructions n)
termination_by (sizeOf n, 1)

/-- Method `referenced_plot_instructions`, per variant:
`DataItem` (demo.py lines 118-119), `DataLink` (126-127),
`TrendItem` (138-141), `TrendLink` (149-150), `Plot` (167-171).
On `Modifier` and the root/container items the attribute is missing /
the base method raises `NotImplementedError`: modelled by `none`. -/
def referenced_plot_instructions : Node → Option (List PlotInstruction)
  | .dataItem x y _ => some [{ plot_keywords := [], x := x, y := y }]
  | .dataLink src _ => plot_instructions src
  | .trendItem cs => trendChildren cs
  | .trendLink src _ => plot_instructions src
  | .plot cs => plotChildren cs
  | .modifier _ _ => none
  | .other _ => none
termination_by n => (sizeOf n, 0)

/-- demo.py lines 138-141:
`flatten([c.plot_instructions() for c in children if isinstance(c, DataLink)])`,
written as structural recursion over the child list so that the recursion is
visibly well-founded (a raised exception anywhere propagates as `none`). -/
def trendChildren : List Node → Option (List PlotInstruction)
  | [] => some []
  | c :: rest =>
    if isDataLink c then
      (plot_instructions c).bind fun first =>
        (trendChildren rest).map fun more => first ++ more
    else trendChildren rest
termination_by cs => (sizeOf cs, 2)

/-- demo.py lines 167-171:
`flatten([c.plot_instructions() for c in children if isinstance(c, Plottable)])`,
written as structural recursion over the child list. -/
def plotChildren : List Node → Option (List PlotInstruction)
  | [] => some []
  | c :: rest =>
    if isPlottable c then
      (plot_instructions c).bind fun first =>
        (plotChildren rest).map fun more => first ++ more
    else plotChildren rest
termination_by cs => (sizeOf cs, 2)

end

/-- formatting_inheritance.py lines 8-18: `Appearance`, two independently
nullable fields. -/
structure Appearance where
  colour : Option String
  trend_scheme : Option String
deriving DecidableEq, Repr

/-- formatting_inheritance.py lines 20-25: `Appearance.override`: each field
takes `other`'s value unless it is `None`, in which case `self`'s value. -/
def Appearance.override (self other : Appearance) : Appearance :=
  { colour :=
      match other.colour with
      | none => self.colour
      | some c => some c
    trend_scheme :=
      match other.trend_scheme with
      | none => self.trend_scheme
      | some t => some t }

/-- formatting_inheritance.py line 34: `AppearanceContainer.__init__` sets the
instance attribute `self.appearance = Appearance()` (both fields `None`).
Because `__init__` runs on every instance — including `Default` — this
instance attribute shadows the `appearance` *method* of the class (and
`Default`'s override of it) in every attribute lookup on an instance. -/
def containerInitAppearance : Appearance := Appearance.mk none none

/-- formatting_inheritance.py lines 36-37: the body of the (shadowed)
`AppearanceContainer.appearance` method.  Note it reads the parent's
`appearance` *attribute* (no call parentheses) and its own `appearance`
attribute: it merges one level only and never walks to the root. -/
def containerAppearanceBody (parentAttr selfAttr : Appearance) : Appearance :=
  parentAttr.override selfAttr

/-- formatting_inheritance.py lines 46-49: the body of the (shadowed)
`Default.appearance` method: the intended fully-populated root defaults. -/
def defaultAppearanceBody : Appearance :=
  Appearance.mk (some "k") (some "jet")

/-! ### Dict lemmas -/

theorem dictGet_dictSet_self (d : List (String × AttrValue)) (k : String)
    (v : AttrValue) : dictGet (dictSet d k v) k = some v := by
  induction d with
  | nil => simp [dictSet, dictGet]
  | cons p rest ih =>
    by_cases h : p.1 = k
    · simp [dictSet, dictGet, h]
    · simp [dictSet, dictGet, h, ih]

theorem dictGet_dictSet_ne (d : List (String × AttrValue)) {k k' : String}
    (v : AttrValue) (h : k' ≠ k) :
    dictGet (dictSet d k v) k' = dictGet d k' := by
  have hk : ¬(k = k') := fun hh => h (Eq.symm hh)
  induction d with
  | nil => simp [dictSet, dictGet, hk]
  | cons p rest ih =>
    by_cases hp : p.1 = k
    · subst hp
      simp [dictSet, dictGet, hk]
    · by_cases hp' : p.1 = k'
      · simp [dictSet, dictGet, hp, hp', h]
      · simp [dictSet, dictGet, hp, hp', ih]

theorem dictSet_of_dictGet (d : List (String × AttrValue)) {k : String}
    {v : AttrValue} (h : dictGet d k = some v) : dictSet d k v = d := by
  induction d with
  | nil => simp [dictGet] at h
  | cons p rest ih =>
    by_cases hp : p.1 = k
    · simp only [dictGet, if_pos hp, Option.some_inj] at h
      simp only [dictSet, if_pos hp]
      rw [← hp, ← h]
    · simp only [dictGet, if_neg hp] at h
      simp [dictSet, hp, ih h]

/-! ### C7: Appearance.override -/

/-- C7: `Appearance.override` is right-biased and total: when every field of
`b` is non-null, `a.override b = b`; overriding with an all-null `Appearance`
(the default `Appearance()`) returns `a` unchanged.  The operation is a pure
total function on `Appearance` values (it builds a new record and touches
neither argument). -/
theorem override_right_biased_total (a b : Appearance)
    (hc : b.colour.isSome = true) (ht : b.trend_scheme.isSome = true) :
    a.override b = b ∧ a.override (Appearance.mk none none) = a := by
  obtain ⟨bc, bt⟩ := b
  obtain ⟨ac, at'⟩ := a
  cases bc with
  | none => simp at hc
  | some c =>
    cases bt with
    | none => simp at ht
    | some t => simp [Appearance.override]

theorem override_right_biased_total_witness :
    (Appearance.mk (some "r") none).override (Appearance.mk (some "g") (some "jet"))
        = Appearance.mk (some "g") (some "jet") ∧
      (Appearance.mk (some "r") none).override (Appearance.mk none none)
        = Appearance.mk (some "r") none :=
  override_right_biased_total (Appearance.mk (some "r") none)
    (Appearance.mk (some "g") (some "jet")) rfl rfl

/-! ### C8: trend modifier on degenerate inputs -/

/-- C8 (code bug): evaluating `TrendModifier.apply_modifier` at the failing
input.  On a single-instruction input the loop body computes `0/(1-1)` and
Python raises an uncaught `ZeroDivisionError` (modelled by `none`): there is
no documented degenerate-input policy in the code.  On the empty input the
loop never runs and the empty list is returned. -/
theorem trendApply_degenerate_eval :
    trendApply "jet" [PlotInstruction.mk [] [0] [0]] = none ∧
      trendApply "jet" [] = some [] :=
  ⟨rfl, rfl⟩

/-! ### C9: the AppearanceContainer hierarchy -/

/-- C9 (code bug): evaluating the appearance chain the code actually builds.
Every constructed node — `Default` included, since it inherits
`AppearanceContainer.__init__` — carries the instance attribute
`appearance = Appearance()` (all fields `None`), which shadows the
`appearance` methods.  Folding `override` over any root-to-leaf chain of
those attribute values therefore yields the all-`None` appearance: the leaf
is never fully resolved, its `colour` is `None`, and even the shadowed
one-level method body yields all-`None`; the intended root defaults
(`'k'`/`'jet'`) live only in the unreachable `Default.appearance` body. -/
theorem container_chain_never_populated (k : ℕ) :
    (List.replicate k containerInitAppearance).foldl Appearance.override
        containerInitAppearance = containerInitAppearance ∧
      containerInitAppearance.colour = none ∧
      containerAppearanceBody containerInitAppearance containerInitAppearance
          = containerInitAppearance ∧
      defaultAppearanceBody.colour = some "k" := by
  refine ⟨?_, rfl, rfl, rfl⟩
  induction k with
  | zero => rfl
  | succ k ih =>
    have hstep : containerInitAppearance.override containerInitAppearance
        = containerInitAppearance := rfl
    simpa [List.replicate_succ, hstep] using ih

/-! ### C4: DataModifier frame conditions -/

/-- C4: `DataModifier.apply_modifier` returns a list of the same length and
order; the instruction at each position keeps exactly the x and y payloads of
the input instruction at that position (only `plot_keywords` may change).
The function builds fresh `PlotInstruction` values from a copied dict, so the
input list and its elements are not mutated — in this embedding it is a pure
function of the input. -/
theorem dataApply_preserves_frame (color linestyle : Option String)
    (xs : List PlotInstruction) :
    (dataApply color linestyle xs).length = xs.length ∧
      ∀ i : ℕ,
        ((dataApply color linestyle xs)[i]?.map PlotInstruction.x
            = xs[i]?.map PlotInstruction.x) ∧
          ((dataApply color linestyle xs)[i]?.map PlotInstruction.y
            = xs[i]?.map PlotInstruction.y) := by
  refine ⟨by simp [dataApply], fun i => ?_⟩
  constructor <;>
    · simp only [dataApply, List.getElem?_map, Option.map_map]
      cases xs[i]? <;> rfl

/-! ### C3: DataModifier idempotence and pass-through -/

theorem dataKeywords_idem (color linestyle : Option String)
    (d : List (String × AttrValue)) :
    dataKeywords color linestyle (dataKeywords color linestyle d)
      = dataKeywords color linestyle d := by
  cases color with
  | none =>
    cases linestyle with
    | none => rfl
    | some l =>
      simp only [dataKeywords]
      exact dictSet_of_dictGet _ (dictGet_dictSet_self _ _ _)
  | some c =>
    cases linestyle with
    | none =>
      simp only [dataKeywords]
      exact dictSet_of_dictGet _ (dictGet_dictSet_self _ _ _)
    | some l =>
      simp only [dataKeywords]
      have hcolor :
          dictGet (dictSet (dictSet d "color" (AttrValue.str c)) "linestyle"
            (AttrValue.str l)) "color" = some (AttrValue.str c) := by
        rw [dictGet_dictSet_ne _ _ (by decide)]
        exact dictGet_dictSet_self _ _ _
      rw [dictSet_of_dictGet _ hcolor]
      exact dictSet_of_dictGet _ (dictGet_dictSet_self _ _ _)

theorem dataKeywords_passthrough (color linestyle : Option String)
    (d : List (String × AttrValue)) (k : String)
    (hc : ¬(k = "color" ∧ color.isSome = true))
    (hl : ¬(k = "linestyle" ∧ linestyle.isSome = true)) :
    dictGet (dataKeywords color linestyle d) k = dictGet d k := by
  cases color with
  | none =>
    cases linestyle with
    | none => rfl
    | some l =>
      have hk : k ≠ "linestyle" := fun h => hl ⟨h, rfl⟩
      simp only [dataKeywords]
      exact dictGet_dictSet_ne _ _ hk
  | some c =>
    have hkc : k ≠ "color" := fun h => hc ⟨h, rfl⟩
    cases linestyle with
    | none =>
      simp only [dataKeywords]
      exact dictGet_dictSet_ne _ _ hkc
    | some l =>
      have hkl : k ≠ "linestyle" := fun h => hl ⟨h, rfl⟩
      simp only [dataKeywords]
      rw [dictGet_dictSet_ne _ _ hkl]
      exact dictGet_dictSet_ne _ _ hkc

/-- C3: `DataModifier.apply_modifier` is idempotent — a second application
returns literally the same instruction list, so in particular the same
`color` and `linestyle` values — and every attribute key the modifier was not
configured with (configured `None`, or any key other than `color` /
`linestyle`) has in each output instruction exactly the value it had in the
corresponding input instruction. -/
theorem dataApply_idempotent_passthrough (color linestyle : Option String)
    (xs : List PlotInstruction) :
    dataApply color linestyle (dataApply color linestyle xs)
        = dataApply color linestyle xs ∧
      ∀ (i : ℕ) (k : String),
        ¬(k = "color" ∧ color.isSome = true) →
        ¬(k = "linestyle" ∧ linestyle.isSome = true) →
        (dataApply color linestyle xs)[i]?.map
            (fun ins => dictGet ins.plot_keywords k)
          = xs[i]?.map (fun ins => dictGet ins.plot_keywords k) := by
  constructor
  · simp only [dataApply, List.map_map]
    apply List.map_congr_left
    intro a _
    simp [dataKeywords_idem]
  · intro i k hc hl
    simp only [dataApply, List.getElem?_map, Option.map_map]
    cases xs[i]? with
    | none => rfl
    | some a =>
      simp [dataKeywords_passthrough color linestyle _ k hc hl]

theorem dataApply_idempotent_passthrough_witness :
    dataApply (some "r") none
          (dataApply (some "r") none
            [PlotInstruction.mk [("z", AttrValue.str "v")] [0] [1]])
        = dataApply (some "r") none
            [PlotInstruction.mk [("z", AttrValue.str "v")] [0] [1]] ∧
      (dataApply (some "r") none
            [PlotInstruction.mk [("z", AttrValue.str "v")] [0] [1]])[0]?.map
          (fun ins => dictGet ins.plot_keywords "z")
        = ([PlotInstruction.mk [("z", AttrValue.str "v")] [0] [1]])[0]?.map
            (fun ins => dictGet ins.plot_keywords "z") :=
  ⟨(dataApply_idempotent_passthrough (some "r") none
      [PlotInstruction.mk [("z", AttrValue.str "v")] [0] [1]]).1,
    (dataApply_idempotent_passthrough (some "r") none
      [PlotInstruction.mk [("z", AttrValue.str "v")] [0] [1]]).2 0 "z"
      (by decide) (by decide)⟩

/-! ### C2: TrendModifier colormap positions -/

theorem trendApply_color_at (scheme : String) (xs : List PlotInstruction)
    {out : List PlotInstruction} (hout : trendApply scheme xs = some out)
    (i : ℕ) (hi : i < xs.length) :
    out[i]?.map (fun ins => dictGet ins.plot_keywords "color")
      = some (some (AttrValue.cmapSample scheme
          ((i : ℚ) / ((xs.length : ℚ) - 1)))) := by
  by_cases hne : xs.length = 1
  · simp [trendApply, hne] at hout
  · simp only [trendApply, if_neg hne, Option.some_inj] at hout
    subst hout
    rw [List.getElem?_map, List.getElem?_enum,
      List.getElem?_eq_getElem hi]
    simp [dictGet_dictSet_self]

/-- C2: for an input of length `n ≥ 2`, `TrendModifier.apply_modifier`
succeeds and colors the instruction at each 0-based index `i` with the named
colormap sampled at position `i/(n-1)`; the sample positions are strictly
increasing in `i`, and for `n = 2` the two instructions sit at colormap
positions `0` and `1` exactly. -/
theorem trendApply_colormap_positions (scheme : String)
    (xs : List PlotInstruction) (h2 : 2 ≤ xs.length) :
    ∃ out, trendApply scheme xs = some out ∧
      out.length = xs.length ∧
      (∀ i : ℕ, i < xs.length →
        out[i]?.map (fun ins => dictGet ins.plot_keywords "color")
          = some (some (AttrValue.cmapSample scheme
              ((i : ℚ) / ((xs.length : ℚ) - 1))))) ∧
      (∀ i j : ℕ, i < j → j < xs.length →
        (i : ℚ) / ((xs.length : ℚ) - 1)
          < (j : ℚ) / ((xs.length : ℚ) - 1)) ∧
      (xs.length = 2 →
        out[0]?.map (fun ins => dictGet ins.plot_keywords "color")
            = some (some (AttrValue.cmapSample scheme 0)) ∧
          out[1]?.map (fun ins => dictGet ins.plot_keywords "color")
            = some (some (AttrValue.cmapSample scheme 1))) := by
  have hne : xs.length ≠ 1 := by omega
  obtain ⟨out, hout⟩ : ∃ out, trendApply scheme xs = some out := by
    simp only [trendApply, if_neg hne]
    exact ⟨_, rfl⟩
  refine ⟨out, hout, ?_, fun i hi => trendApply_color_at scheme xs hout i hi,
    ?_, ?_⟩
  · simp only [trendApply, if_neg hne, Option.some_inj] at hout
    subst hout
    simp [List.enum_length]
  · intro i j hij hj
    have hpos : (0 : ℚ) < (xs.length : ℚ) - 1 := by
      have hcast : (2 : ℚ) ≤ (xs.length : ℚ) := by exact_mod_cast h2
      linarith
    exact (div_lt_div_iff_of_pos_right hpos).mpr (by exact_mod_cast hij)
  · intro hlen
    have h0 := trendApply_color_at scheme xs hout 0 (by omega)
    have h1 := trendApply_color_at scheme xs hout 1 (by omega)
    rw [hlen] at h0 h1
    norm_num at h0 h1
    obtain ⟨a0, ha0, hc0⟩ := h0
    obtain ⟨a1, ha1, hc1⟩ := h1
    constructor
    · rw [ha0]
      simp [hc0]
    · rw [ha1]
      simp [hc1]

theorem trendApply_colormap_positions_witness :
    ∃ out,
      trendApply "jet"
          [PlotInstruction.mk [] [0] [0], PlotInstruction.mk [] [1] [1]]
        = some out ∧
      out.length
        = [PlotInstruction.mk [] [0] [0], PlotInstruction.mk [] [1] [1]].length ∧
      (∀ i : ℕ,
        i < [PlotInstruction.mk [] [0] [0], PlotInstruction.mk [] [1] [1]].length →
        out[i]?.map (fun ins => dictGet ins.plot_keywords "color")
          = some (some (AttrValue.cmapSample "jet"
              ((i : ℚ) /
                (([PlotInstruction.mk [] [0] [0],
                    PlotInstruction.mk [] [1] [1]].length : ℚ) - 1))))) ∧
      (∀ i j : ℕ, i < j →
        j < [PlotInstruction.mk [] [0] [0], PlotInstruction.mk [] [1] [1]].length →
        (i : ℚ) /
            (([PlotInstruction.mk [] [0] [0],
                PlotInstruction.mk [] [1] [1]].length : ℚ) - 1)
          < (j : ℚ) /
              (([PlotInstruction.mk [] [0] [0],
                  PlotInstruction.mk [] [1] [1]].length : ℚ) - 1)) ∧
      ([PlotInstruction.mk [] [0] [0], PlotInstruction.mk [] [1] [1]].length = 2 →
        out[0]?.map (fun ins => dictGet ins.plot_keywords "color")
            = some (some (AttrValue.cmapSample "jet" 0)) ∧
          out[1]?.map (fun ins => dictGet ins.plot_keywords "color")
            = some (some (AttrValue.cmapSample "jet" 1))) :=
  trendApply_colormap_positions "jet"
    [PlotInstruction.mk [] [0] [0], PlotInstruction.mk [] [1] [1]]
    (by decide)

/-! ### C1: plot_instructions is the fold of the modifier chain -/

/-- C1: for every node, `plot_instructions` is the left fold of
`apply_modifier` over the node's immediate children taken in tree order,
where each `Modifier`-kind child transforms the accumulated output and every
non-modifier child is ignored, starting from
`referenced_plot_instructions`. -/
theorem plot_instructions_eq_child_fold (n : Node) :
    plot_instructions n =
      n.children.foldl
        (fun out c =>
          match asModifier c with
          | some m => out >>= applyModifier m
          | none => out)
        (referenced_plot_instructions n) := by
  rw [plot_instructions]
  unfold Node.modifiers
  generalize referenced_plot_instructions n = init
  generalize n.children = cs
  induction cs generalizing init with
  | nil => rfl
  | cons c rest ih =>
    rw [List.filterMap_cons]
    cases h : asModifier c with
    | none =>
      simp only [List.foldl_cons, h]
      exact ih init
    | some m =>
      simp only [List.foldl_cons, h]
      exact ih (init >>= applyModifier m)

/-! ### C5: links read through to their source -/

/-- C5: a `DataLink` made from a `DataItem` (resp. a `TrendLink` made from a
`TrendItem`) by `create_link`, as long as it has no `Modifier`-kind children
of its own, produces exactly `plot_instructions` of its source as evaluated
now: the link stores only the source reference and re-reads the source's
modified output on every call, rather than a copy taken at creation time. -/
theorem link_is_read_through (X : Node) (cs : List Node)
    (hnomod : cs.filterMap asModifier = []) :
    (isDataItem X = true →
      plot_instructions (Node.dataLink X cs) = plot_instructions X) ∧
      (isTrendItem X = true →
        plot_instructions (Node.trendLink X cs) = plot_instructions X) := by
  constructor
  · intro _
    conv_lhs => rw [plot_instructions]
    simp [Node.modifiers, Node.children, hnomod, referenced_plot_instructions]
  · intro _
    conv_lhs => rw [plot_instructions]
    simp [Node.modifiers, Node.children, hnomod, referenced_plot_instructions]

theorem link_is_read_through_witness :
    isDataItem (Node.dataItem [] [] []) = true ∧
      plot_instructions (Node.dataLink (Node.dataItem [] [] []) [])
        = plot_instructions (Node.dataItem [] [] []) :=
  ⟨rfl, (link_is_read_through (Node.dataItem [] [] []) [] rfl).1 rfl⟩

/-! ### C6: TrendItem concatenates its DataLink children -/

theorem trendChildren_eq_filter_mapM (cs : List Node) :
    trendChildren cs
      = ((cs.filter isDataLink).mapM plot_instructions).map flatten := by
  induction cs with
  | nil =>
    simp only [trendChildren]
    rfl
  | cons c rest ih =>
    by_cases h : isDataLink c
    · rw [List.filter_cons_of_pos h, List.mapM_cons]
      simp only [trendChildren, h, if_true, ih]
      cases hc : plot_instructions c with
      | none => rfl
      | some first =>
        cases hrest : (rest.filter isDataLink).mapM plot_instructions with
        | none => rfl
        | some ls => simp [flatten, Option.bind]
    · rw [List.filter_cons_of_neg h]
      simp only [trendChildren, h, if_false, Bool.false_eq_true]
      exact ih

/-- C6: `referenced_plot_instructions` of a `TrendItem` is the left-to-right
concatenation of `plot_instructions()` of exactly its `DataLink` children in
child order (children of any other kind contribute nothing); with the
two-link child list `[L1, L2]` this is `L1.plot_instructions() ++
L2.plot_instructions()`. -/
theorem trendItem_concatenates_dataLinks (cs : List Node) :
    referenced_plot_instructions (Node.trendItem cs)
      = ((cs.filter isDataLink).mapM plot_instructions).map flatten := by
  rw [referenced_plot_instructions]
  exact trendChildren_eq_filter_mapM cs

/-! ### C10: a Plot without Plottable children -/

theorem applyModifier_nil (m : ModifierKind) : applyModifier m [] = some [] := by
  cases m <;> rfl

theorem modChain_nil (ms : List ModifierKind) :
    ms.foldl (fun out m => out >>= applyModifier m) (some []) = some [] := by
  induction ms with
  | nil => rfl
  | cons m rest ih =>
    simp only [List.foldl_cons]
    rw [show (some ([] : List PlotInstruction) >>= applyModifier m) = some []
      from applyModifier_nil m]
    exact ih

theorem plotChildren_no_plottable (cs : List Node)
    (h : ∀ c ∈ cs, isPlottable c = false) : plotChildren cs = some [] := by
  induction cs with
  | nil => simp [plotChildren]
  | cons c rest ih =>
    have hc := h c (List.mem_cons_self c rest)
    simp only [plotChildren, hc, if_false, Bool.false_eq_true]
    exact ih fun c' hc' => h c' (List.mem_cons_of_mem _ hc')

/-- C10: a `Plot` none of whose immediate children is `Plottable` — however
many `Modifier` or other children it has — yields the empty instruction list
with no failure: flattening the (empty) `Plottable` selection gives `[]` and
every modifier maps `[]` to `[]`. -/
theorem plot_without_plottables_empty (cs : List Node)
    (h : ∀ c ∈ cs, isPlottable c = false) :
    plot_instructions (Node.plot cs) = some [] := by
  rw [plot_instructions]
  have h1 : referenced_plot_instructions (Node.plot cs) = some [] := by
    rw [referenced_plot_instructions]
    exact plotChildren_no_plottable cs h
  rw [h1]
  exact modChain_nil _

theorem plot_without_plottables_empty_witness :
    plot_instructions
        (Node.plot
          [Node.modifier (ModifierKind.dataModifier (some "r") none) [],
            Node.other []])
      = some [] :=
  plot_without_plottables_empty
    [Node.modifier (ModifierKind.dataModifier (some "r") none) [],
      Node.other []]
    (by decide)

end PlotColorThingy
